import Mathlib

/-!
Verification development for the PicEdit browser image editor.

The editor page keeps its whole session in component state: the working
image (a data URI, modelled here by its decoded raster), tone and stylistic
adjustment sliders, geometry (rotation, flips, crop rectangle, crop zoom),
a rasterized stroke overlay, and a list of text annotations.  The
operations modelled below are the event handlers of the edit page:
`handleReset`, `handleRotate`, `finishCrop`, `handleSave` (the export
pipeline), and the text-placement click handler.

Conventions of the shallow embedding:
  * JS numbers are modelled by `ℚ` (exact rational arithmetic); pixel
    coordinates and canvas dimensions by `ℕ`; rotation degrees by `ℤ`.
  * A raster is `Img`: dimensions plus a total pixel function.
  * Canvas `drawImage` through a non-trivial rotate/flip context transform
    performs host-defined resampling; it is abstracted by a `Host`
    parameter, and theorems quantify over all hosts.  `drawImage` with a
    fractional source rectangle is modelled by floor sampling.
  * Assigning `canvas.width`/`canvas.height` resets the 2D context state
    (including `filter` and the transform), as per the HTML canvas
    specification; the model of `handleSave` reflects this.
  * JS `%` (sign follows the dividend) is modelled by `jsRem`.
  * JS `String.split` with a one-character separator is modelled by
    `jsSplitChar` on `List Char`.
-/

/-- One RGBA pixel; channels are exact rationals in `[0, 255]`. -/
structure Pixel where
  r : ℚ
  g : ℚ
  b : ℚ
  a : ℚ
deriving DecidableEq

/-- A raster surface: dimensions plus a total pixel function. -/
structure Img where
  width : ℕ
  height : ℕ
  px : ℕ → ℕ → Pixel

/-- A crop rectangle `{x, y, width, height}` (percent units before scaling,
pixel units after scaling, as in the source). -/
structure CropRect where
  x : ℚ
  y : ℚ
  width : ℚ
  height : ℚ
deriving DecidableEq

/-- The source's `TextAnnotation` record: display-space position, content,
color, font size, plus the optional UI fields. -/
structure TextAnnot where
  x : ℚ
  y : ℚ
  text : String
  color : String
  fontSize : ℚ
  isDragging : Option Bool := none
  width : Option ℚ := none
  height : Option ℚ := none
  isSelected : Option Bool := none
deriving DecidableEq

/-- The two independent flip flags of the geometry model. -/
structure FlipState where
  horizontal : Bool
  vertical : Bool
deriving DecidableEq

/-- The source's drawing tool enumeration. -/
inductive Tool where
  | pen
  | text
  | shape
deriving DecidableEq

/-- The source's `DrawSettings` record. -/
structure DrawSettings where
  tool : Option Tool
  color : String
  size : ℚ
  opacity : ℚ
  brushType : Option String := none
  shape : Option String := none
deriving DecidableEq

/-- The editor page's session state: the `useState` hooks of `EditPage`
that participate in the modelled operations.  `drawCanvas` is the stroke
overlay raster; `sessionOriginal` is the `editImageData` entry of session
storage (the immutable original); `displayWidth`/`displayHeight` are the
dimensions of the displayed image element (`imageRef`). -/
structure EditorState where
  imageData : Option Img
  imageType : Option String
  brightness : ℚ
  contrast : ℚ
  saturation : ℚ
  blur : ℚ
  sharpen : ℚ
  vignette : ℚ
  sepia : ℚ
  hue : ℚ
  selectedFilter : Option String
  crop : CropRect
  completedCrop : Option CropRect
  rotation : ℤ
  flip : FlipState
  isCropping : Bool
  fileName : String
  isSaving : Bool
  scale : ℚ
  drawSettings : DrawSettings
  textAnnotations : List TextAnnot
  newTextInput : String
  isAddingText : Bool
  selectedText : Option ℕ
  highlights : ℚ
  shadows : ℚ
  clarity : ℚ
  vibrance : ℚ
  selectedBrush : String
  selectedShape : String
  activeCategory : String
  drawCanvas : Img
  sessionOriginal : Option Img
  displayWidth : ℚ
  displayHeight : ℚ

/-- Clamp one color channel to `[0, 255]`. -/
def clampCh (q : ℚ) : ℚ := max 0 (min 255 q)

/-- CSS `brightness(b%)` filter: linear scaling of the color channels,
alpha untouched. -/
def brightnessF (b : ℚ) (p : Pixel) : Pixel :=
  ⟨clampCh (p.r * b / 100), clampCh (p.g * b / 100), clampCh (p.b * b / 100), p.a⟩

/-- CSS `contrast(c%)` filter: linear transfer about mid-gray, alpha
untouched. -/
def contrastF (c : ℚ) (p : Pixel) : Pixel :=
  ⟨clampCh (p.r * c / 100 + 255 * (1 - c / 100) / 2),
   clampCh (p.g * c / 100 + 255 * (1 - c / 100) / 2),
   clampCh (p.b * c / 100 + 255 * (1 - c / 100) / 2), p.a⟩

/-- CSS `saturate(s%)` filter: the standard luminance-preserving
saturation matrix, alpha untouched. -/
def saturateF (s : ℚ) (p : Pixel) : Pixel :=
  let t := s / 100
  ⟨clampCh ((213 / 1000 + 787 / 1000 * t) * p.r +
      (715 / 1000 * (1 - t)) * p.g + (72 / 1000 * (1 - t)) * p.b),
   clampCh ((213 / 1000 * (1 - t)) * p.r +
      (715 / 1000 + 285 / 1000 * t) * p.g + (72 / 1000 * (1 - t)) * p.b),
   clampCh ((213 / 1000 * (1 - t)) * p.r +
      (715 / 1000 * (1 - t)) * p.g + (72 / 1000 + 928 / 1000 * t) * p.b), p.a⟩

/-- The export pipeline's `ctx.filter` string
`brightness(b%) contrast(c%) saturate(s%)`: the three primitives applied
left to right. -/
def toneFilter (b c s : ℚ) (p : Pixel) : Pixel :=
  saturateF s (contrastF c (brightnessF b p))

/-- Source-over compositing of `src` onto `dst`.  A fully transparent
source pixel leaves the destination bit-identical (as real canvas
compositing does); otherwise the standard non-premultiplied source-over
formula applies. -/
def over (src dst : Pixel) : Pixel :=
  if src.a = 0 then dst
  else
    let outA := src.a + dst.a * (255 - src.a) / 255
    ⟨(src.r * src.a + dst.r * dst.a * (255 - src.a) / 255) / outA,
     (src.g * src.a + dst.g * dst.a * (255 - src.a) / 255) / outA,
     (src.b * src.a + dst.b * dst.a * (255 - src.a) / 255) / outA,
     outA⟩

/-- A `w × h` surface cleared to fully transparent black (the effect of
`ctx.clearRect` over the whole canvas). -/
def clearImg (w h : ℕ) : Img := ⟨w, h, fun _ _ => ⟨0, 0, 0, 0⟩⟩

@[simp] theorem clearImg_width (w h : ℕ) : (clearImg w h).width = w := rfl

@[simp] theorem clearImg_height (w h : ℕ) : (clearImg w h).height = h := rfl

/-- A rational canvas dimension as stored by the host: assignment to
`canvas.width` truncates the number toward zero (values here are
nonnegative, so this is the floor). -/
def ratToDim (q : ℚ) : ℕ := ⌊q⌋.toNat

/-- `drawImage(image, r.x, r.y, r.w, r.h, 0, 0, r.w, r.h)` into a fresh
canvas sized to the rectangle: extraction of a sub-region, with
fractional source offsets modelled by floor sampling. -/
def cropImg (img : Img) (r : CropRect) : Img :=
  ⟨ratToDim r.width, ratToDim r.height,
   fun i j => img.px (ratToDim r.x + i) (ratToDim r.y + j)⟩

/-- `drawImage(src, 0, 0, dw, dh)`: stretch `src` over a `dw × dh`
destination, sampling modelled by floor (nearest lower source pixel). -/
def stretchPx (src : Img) (dw dh : ℕ) (x y : ℕ) : Pixel :=
  src.px (x * src.width / dw) (y * src.height / dh)

/-- Host rendering behavior that the embedding does not compute:
`drawThroughTransform src dest rot fh fv filt x y` is the pixel the host
produces at `(x, y)` when `src` is drawn over `dest` through the
center-rotation/flip context transform with the given pixel filter
active.  Theorems quantify over all hosts. -/
structure Host where
  drawThroughTransform : Img → Img → ℤ → Bool → Bool → (Pixel → Pixel) → ℕ → ℕ → Pixel

/-- One `ctx.fillText` call recorded by the export pipeline: the text,
fill color, the position arguments and the font size actually passed. -/
structure TextCmd where
  text : String
  color : String
  x : ℚ
  y : ℚ
  fontSize : ℚ
deriving DecidableEq

/-- The observable outcome of one export: the crop source rectangle
passed to `drawImage` (if any), the flattened base raster after the
image/transform/crop/overlay steps, the ordered `fillText` commands, the
download file name and the encoding MIME type. -/
structure SaveResult where
  cropSrc : Option CropRect
  base : Img
  textCmds : List TextCmd
  downloadName : String
  mime : String

/-- JS `%` on integers with a positive divisor: the remainder takes the
sign of the dividend. -/
def jsRem (a b : ℤ) : ℤ := if a < 0 then -((-a) % b) else a % b

/-- `handleRotate`: `setRotation(prev => (prev + degrees) % 360)`. -/
def handleRotate (prev degrees : ℤ) : ℤ := jsRem (prev + degrees) 360

/-- The rotation stored after a whole sequence of rotate operations. -/
def rotateSeq (r0 : ℤ) (ds : List ℤ) : ℤ := ds.foldl handleRotate r0

/-- JS `String.split` with a one-character separator, on the character
list of the string.  `jsSplitChar sep cs` never returns `[]`. -/
def jsSplitChar (sep : Char) : List Char → List (List Char)
  | [] => [[]]
  | c :: cs =>
    if c = sep then [] :: jsSplitChar sep cs
    else
      match jsSplitChar sep cs with
      | r :: rs => (c :: r) :: rs
      | [] => [[c]]

/-- `storedImageType.split('/')[1] || 'jpg'`: the extension derived from
the MIME type at page initialization. -/
def extFromMime (m : String) : String :=
  match (jsSplitChar '/' m.toList).get? 1 with
  | some s => if s = [] then "jpg" else String.mk s
  | none => "jpg"

/-- The download file name set when the editor loads a session with the
given MIME type. -/
def initFileName (m : String) : String := "edited-image." ++ extFromMime m

/-- The crop rectangle's initial / reset value: 90% of each axis,
centered (`{unit: '%', width: 90, height: 90, x: 5, y: 5}`). -/
def defaultCrop : CropRect := ⟨5, 5, 90, 90⟩

/-- The draw settings installed by `handleReset`. -/
def resetDrawSettings : DrawSettings :=
  ⟨none, "#000000", 5, 100, some "pencil", some "rectangle"⟩

/-- `handleReset`: restore every adjustment, geometry and annotation
field to its default, clear the stroke overlay, and restore the working
image from the `editImageData` session-storage entry when it is present. -/
def handleReset (s : EditorState) : EditorState :=
  { s with
    brightness := 100
    contrast := 100
    saturation := 100
    blur := 0
    sharpen := 0
    vignette := 0
    sepia := 0
    hue := 0
    selectedFilter := none
    rotation := 0
    flip := ⟨false, false⟩
    crop := defaultCrop
    completedCrop := none
    scale := 1
    isCropping := false
    highlights := 0
    shadows := 0
    clarity := 0
    vibrance := 0
    drawSettings := resetDrawSettings
    selectedBrush := "pencil"
    selectedShape := "rectangle"
    textAnnotations := []
    newTextInput := ""
    isAddingText := false
    selectedText := none
    drawCanvas := clearImg s.drawCanvas.width s.drawCanvas.height
    imageData := match s.sessionOriginal with
      | some o => some o
      | none => s.imageData
    activeCategory := "quick" }

/-- `finishCrop`: with a completed crop and a loaded image, rasterize the
crop (the completed rectangle divided by the zoom scale) against the
current working image, replace the working image with the result, leave
crop mode, clear the completed crop and reset the zoom; otherwise just
leave crop mode and reset the zoom. -/
def finishCrop (s : EditorState) : EditorState :=
  match s.completedCrop, s.imageData with
  | some cc, some img =>
    { s with
      imageData := some (cropImg img
        ⟨cc.x / s.scale, cc.y / s.scale, cc.width / s.scale, cc.height / s.scale⟩)
      isCropping := false
      completedCrop := none
      scale := 1 }
  | _, _ =>
    { s with isCropping := false, scale := 1 }

/-- `handleSave`, the export pipeline.  Returns the new state and the
export outcome (`none` when no image is loaded).  Faithful points of the
translation:
  * the original image is drawn *before* `ctx.filter` is assigned, so the
    initial draw is unfiltered;
  * the filtered redraw happens only when `rotation ≠ 0` or a flip is set,
    through the host's transform sampling;
  * the crop source rectangle scales the completed crop's fields by
    (canvas dimension / 100);
  * resizing the canvas in the crop branch resets the context state, so
    after a crop the tone filter is no longer active for the overlay draw;
  * the overlay and each text annotation re-apply the rotation/flip
    transform; text positions are the stored display coordinates times
    `canvas / imageRef` scale factors; the font size is scaled by the
    smaller factor. -/
def handleSave (host : Host) (s : EditorState) : EditorState × Option SaveResult :=
  match s.imageData with
  | none => (s, none)
  | some img =>
    let w := img.width
    let h := img.height
    let filt := toneFilter s.brightness s.contrast s.saturation
    let transformOn : Prop := s.rotation ≠ 0 ∨ s.flip.horizontal ∨ s.flip.vertical
    let canvas0 : Img := ⟨w, h, img.px⟩
    let px1 : ℕ → ℕ → Pixel :=
      if transformOn then
        host.drawThroughTransform img canvas0 s.rotation
          s.flip.horizontal s.flip.vertical filt
      else img.px
    let canvas1 : Img := ⟨w, h, px1⟩
    let cropSrc : Option CropRect := s.completedCrop.map (fun cc =>
      ⟨cc.x / 100 * (w : ℚ), cc.y / 100 * (h : ℚ),
       cc.width / 100 * (w : ℚ), cc.height / 100 * (h : ℚ)⟩)
    let canvas2 : Img :=
      match cropSrc with
      | none => canvas1
      | some r => cropImg canvas1 r
    let overlayFilt : Pixel → Pixel := if s.completedCrop.isSome then id else filt
    let px3 : ℕ → ℕ → Pixel :=
      if transformOn then
        host.drawThroughTransform s.drawCanvas canvas2 s.rotation
          s.flip.horizontal s.flip.vertical overlayFilt
      else
        fun x y =>
          over (overlayFilt (stretchPx s.drawCanvas canvas2.width canvas2.height x y))
            (canvas2.px x y)
    let canvas3 : Img := ⟨canvas2.width, canvas2.height, px3⟩
    let scaleX : ℚ := (canvas2.width : ℚ) / s.displayWidth
    let scaleY : ℚ := (canvas2.height : ℚ) / s.displayHeight
    let textCmds : List TextCmd := s.textAnnotations.map (fun a =>
      ⟨a.text, a.color, a.x * scaleX, a.y * scaleY, a.fontSize * min scaleX scaleY⟩)
    ({ s with isSaving := true },
     some ⟨cropSrc, canvas3, textCmds, s.fileName, s.imageType.getD "image/jpeg"⟩)

/-- The click handler of the text-placement overlay (rendered only while
`isAddingText`): the click position relative to the element is `(x, y)`,
the element size `(rw, rh)`.  Within bounds and with a non-empty pending
input, one annotation is appended with the current draw color and twice
the current draw size, the input is cleared and the text tool
deactivated; otherwise nothing happens. -/
def handleTextPlacementClick (s : EditorState) (x y rw rh : ℚ) : EditorState :=
  if s.isAddingText then
    if 0 ≤ x ∧ x ≤ rw ∧ 0 ≤ y ∧ y ≤ rh then
      if s.newTextInput ≠ "" then
        { s with
          textAnnotations := s.textAnnotations ++
            [{ x := x, y := y, text := s.newTextInput,
               color := s.drawSettings.color,
               fontSize := s.drawSettings.size * 2 }]
          newTextInput := ""
          isAddingText := false
          drawSettings := { s.drawSettings with tool := none } }
      else s
    else s
  else s

/-- Painter model for the text-drawing phase of the export: the commands
are drawn in list order over the base raster; `coverage` tells which
output pixels a command's glyphs reach and `colorOf` interprets a CSS
color string as an opaque pixel. -/
def renderText (coverage : TextCmd → ℕ → ℕ → Bool) (colorOf : String → Pixel)
    (cmds : List TextCmd) (base : Img) : Img :=
  ⟨base.width, base.height,
   fun x y => cmds.foldl
     (fun acc c => if coverage c x y then colorOf c.color else acc) (base.px x y)⟩

/-- A host whose transform sampling just keeps the destination pixel;
used only to instantiate host-parametric theorems at a concrete value. -/
def trivialHost : Host := ⟨fun _ dest _ _ _ _ x y => dest.px x y⟩

/-- A 1×1 opaque mid-gray image used by concrete instantiations. -/
def sampleImg : Img := ⟨1, 1, fun _ _ => ⟨100, 100, 100, 255⟩⟩

/-- A fully transparent 1×1 overlay (no strokes drawn). -/
def emptyOverlay : Img := ⟨1, 1, fun _ _ => ⟨0, 0, 0, 0⟩⟩

/-- A freshly loaded session over `sampleImg` with every control at its
initial value; concrete instantiations modify its fields. -/
def baseState : EditorState where
  imageData := some sampleImg
  imageType := some "image/png"
  brightness := 100
  contrast := 100
  saturation := 100
  blur := 0
  sharpen := 0
  vignette := 0
  sepia := 0
  hue := 0
  selectedFilter := none
  crop := defaultCrop
  completedCrop := none
  rotation := 0
  flip := ⟨false, false⟩
  isCropping := false
  fileName := "edited-image.png"
  isSaving := false
  scale := 1
  drawSettings := ⟨none, "#000000", 5, 100, none, none⟩
  textAnnotations := []
  newTextInput := ""
  isAddingText := false
  selectedText := none
  highlights := 0
  shadows := 0
  clarity := 0
  vibrance := 0
  selectedBrush := "pencil"
  selectedShape := "rectangle"
  activeCategory := "quick"
  drawCanvas := emptyOverlay
  sessionOriginal := some sampleImg
  displayWidth := 1
  displayHeight := 1

theorem jsRem_modEq (a : ℤ) : jsRem a 360 ≡ a [ZMOD 360] := by
  unfold jsRem
  split
  · simpa using (Int.mod_modEq (-a) 360).neg
  · exact Int.mod_modEq a 360

theorem jsRem_bounds (a : ℤ) : -360 < jsRem a 360 ∧ jsRem a 360 < 360 := by
  unfold jsRem
  split
  · have h0 : (0 : ℤ) ≤ (-a) % 360 := Int.emod_nonneg _ (by norm_num)
    have h1 : (-a) % 360 < 360 := Int.emod_lt_of_pos _ (by norm_num)
    omega
  · have h0 : (0 : ℤ) ≤ a % 360 := Int.emod_nonneg _ (by norm_num)
    have h1 : a % 360 < 360 := Int.emod_lt_of_pos _ (by norm_num)
    omega

/-- C8: if no image is loaded when export is requested, `handleSave` is a
no-op: it returns the state unchanged and produces no export outcome (no
bytes, no download). -/
theorem c8_save_noop_without_image (host : Host) (s : EditorState)
    (h : s.imageData = none) : handleSave host s = (s, none) := by
  simp [handleSave, h]

/-- C8 witness: the no-image no-op at a concrete state. -/
theorem c8_save_noop_without_image_witness :
    handleSave trivialHost { baseState with imageData := none } =
      ({ baseState with imageData := none }, none) :=
  c8_save_noop_without_image trivialHost _ rfl

/-- C3 counterexample: starting from rotation 0, a single `-90°` rotate
stores `-90`, which is not in `[0, 360)` and differs from the `[0, 360)`
representative `270` of the delta sum. -/
theorem c3_rotation_counterexample :
    rotateSeq 0 [-90] = -90 ∧ ¬ 0 ≤ rotateSeq 0 [-90] ∧ rotateSeq 0 [-90] ≠ 270 := by
  refine ⟨?_, by decide, by decide⟩
  decide

/-- C3 amended: starting from any stored rotation in `(-360, 360)`, the
rotation stored after a sequence of rotate operations is congruent modulo
360 to the initial rotation plus the sum of the deltas, and lies in the
open interval `(-360, 360)` (JS `%` keeps the sign of the dividend, so
negative values do occur). -/
theorem c3_rotation_normalization (r0 : ℤ) (ds : List ℤ)
    (hlo : -360 < r0) (hhi : r0 < 360) :
    rotateSeq r0 ds ≡ r0 + ds.sum [ZMOD 360] ∧
      -360 < rotateSeq r0 ds ∧ rotateSeq r0 ds < 360 := by
  induction ds generalizing r0 with
  | nil =>
    refine ⟨?_, hlo, hhi⟩
    show r0 ≡ r0 + List.sum [] [ZMOD 360]
    rw [List.sum_nil, add_zero]
  | cons d ds ih =>
    have hb := jsRem_bounds (r0 + d)
    have h1 := ih (handleRotate r0 d) hb.1 hb.2
    refine ⟨?_, h1.2.1, h1.2.2⟩
    have h2 : handleRotate r0 d ≡ r0 + d [ZMOD 360] := jsRem_modEq (r0 + d)
    calc rotateSeq r0 (d :: ds) = rotateSeq (handleRotate r0 d) ds := rfl
      _ ≡ handleRotate r0 d + ds.sum [ZMOD 360] := h1.1
      _ ≡ (r0 + d) + ds.sum [ZMOD 360] := h2.add_right _
      _ = r0 + (d :: ds).sum := by rw [List.sum_cons]; ring

/-- C3 witness: the amended statement instantiated at rotation 0 with the
delta sequence `[45, -90]`. -/
theorem c3_rotation_normalization_witness :
    rotateSeq 0 [45, -90] ≡ 0 + ([45, -90] : List ℤ).sum [ZMOD 360] ∧
      -360 < rotateSeq 0 [45, -90] ∧ rotateSeq 0 [45, -90] < 360 :=
  c3_rotation_normalization 0 [45, -90] (by decide) (by decide)

/-- C7: `handleReset` restores the adjustment set (tone sliders to 100,
stylistic sliders to 0, no preset), the geometry (rotation 0, no flips,
90%-centered default crop with no completed crop, zoom 1), and the
annotation layer (cleared stroke overlay, no text annotations) to their
defaults; when the session-storage original is present the working image
is restored to it; and reset is idempotent. -/
theorem c7_reset_defaults_and_idempotent (s : EditorState) :
    ((handleReset s).brightness, (handleReset s).contrast, (handleReset s).saturation)
        = (100, 100, 100) ∧
    ((handleReset s).blur, (handleReset s).sharpen, (handleReset s).vignette,
        (handleReset s).sepia, (handleReset s).hue, (handleReset s).highlights,
        (handleReset s).shadows, (handleReset s).clarity, (handleReset s).vibrance)
        = (0, 0, 0, 0, 0, 0, 0, 0, 0) ∧
    (handleReset s).selectedFilter = none ∧
    ((handleReset s).rotation, (handleReset s).flip) = (0, ⟨false, false⟩) ∧
    ((handleReset s).crop, (handleReset s).completedCrop, (handleReset s).scale,
        (handleReset s).isCropping) = (defaultCrop, none, 1, false) ∧
    (∀ x y, (handleReset s).drawCanvas.px x y = ⟨0, 0, 0, 0⟩) ∧
    (handleReset s).textAnnotations = [] ∧
    (∀ o, s.sessionOriginal = some o → (handleReset s).imageData = some o) ∧
    handleReset (handleReset s) = handleReset s := by
  refine ⟨rfl, rfl, rfl, rfl, rfl, fun x y => rfl, rfl, ?_, ?_⟩
  · intro o ho
    simp [handleReset, ho]
  · cases ho : s.sessionOriginal <;>
      simp [handleReset, ho, clearImg]

/-- C7 witness: reset of the base session restores the original image and
is idempotent there. -/
theorem c7_reset_witness :
    (handleReset baseState).imageData = some sampleImg ∧
      handleReset (handleReset baseState) = handleReset baseState := by
  have h := c7_reset_defaults_and_idempotent baseState
  exact ⟨h.2.2.2.2.2.2.2.1 sampleImg rfl, h.2.2.2.2.2.2.2.2⟩

/-- C10: while text-placement mode is active, a click with an empty
pending input is a no-op on the whole editor state; an in-bounds click
with non-empty input appends exactly one annotation at the click's
display coordinates with the current draw color and twice the current
draw size as font size, clears the pending input and deactivates the
text tool. -/
theorem c10_text_placement_click (s : EditorState) (x y rw rh : ℚ)
    (hadd : s.isAddingText = true) :
    (s.newTextInput = "" → handleTextPlacementClick s x y rw rh = s) ∧
    (0 ≤ x → x ≤ rw → 0 ≤ y → y ≤ rh → s.newTextInput ≠ "" →
      handleTextPlacementClick s x y rw rh =
        { s with
          textAnnotations := s.textAnnotations ++
            [{ x := x, y := y, text := s.newTextInput,
               color := s.drawSettings.color,
               fontSize := s.drawSettings.size * 2 }]
          newTextInput := ""
          isAddingText := false
          drawSettings := { s.drawSettings with tool := none } }) := by
  constructor
  · intro he
    simp [handleTextPlacementClick, hadd, he]
  · intro h1 h2 h3 h4 hne
    simp [handleTextPlacementClick, hadd, h1, h2, h3, h4, hne]

/-- A session in text-placement mode with pending input, for the C10
instantiation. -/
def textClickState : EditorState :=
  { baseState with
    isAddingText := true
    newTextInput := "hello"
    drawSettings := ⟨some Tool.text, "#ff0000", 7, 100, none, none⟩ }

/-- C10 witness: the empty-input no-op and the in-bounds append at a
concrete session. -/
theorem c10_text_placement_click_witness :
    handleTextPlacementClick { textClickState with newTextInput := "" } 1 2 10 10 =
      { textClickState with newTextInput := "" } ∧
    handleTextPlacementClick textClickState 1 2 10 10 =
      { textClickState with
        textAnnotations := textClickState.textAnnotations ++
          [{ x := 1, y := 2, text := textClickState.newTextInput,
             color := textClickState.drawSettings.color,
             fontSize := textClickState.drawSettings.size * 2 }]
        newTextInput := ""
        isAddingText := false
        drawSettings := { textClickState.drawSettings with tool := none } } := by
  constructor
  · exact (c10_text_placement_click _ 1 2 10 10 rfl).1 rfl
  · exact (c10_text_placement_click textClickState 1 2 10 10 rfl).2
      (by norm_num) (by norm_num) (by norm_num) (by norm_num) (by decide)

/-- C4 amended: committing a crop (a completed rectangle over a loaded
image) replaces the working image with the crop of the current working
image, returns to the idle (non-cropping) state, clears the completed
crop selection and resets the zoom to 1 — but it leaves the draggable
crop rectangle at its last value instead of resetting it to the
90%-centered default; leaving crop mode with no completed crop returns
to idle with the working image unchanged. -/
theorem c4_crop_state_machine (s : EditorState) :
    (∀ cc img, s.completedCrop = some cc → s.imageData = some img →
      finishCrop s =
        { s with
          imageData := some (cropImg img
            ⟨cc.x / s.scale, cc.y / s.scale, cc.width / s.scale, cc.height / s.scale⟩)
          isCropping := false
          completedCrop := none
          scale := 1 }) ∧
    (s.completedCrop = none →
      (finishCrop s).imageData = s.imageData ∧
      (finishCrop s).isCropping = false ∧
      (finishCrop s).scale = 1 ∧
      (finishCrop s).textAnnotations = s.textAnnotations) ∧
    (finishCrop s).crop = s.crop := by
  refine ⟨?_, ?_, ?_⟩
  · intro cc img hcc himg
    simp [finishCrop, hcc, himg]
  · intro hcc
    cases himg : s.imageData <;> simp [finishCrop, hcc, himg]
  · unfold finishCrop
    cases s.completedCrop <;> cases s.imageData <;> rfl

/-- A session in crop mode whose draggable rectangle was moved away from
the default and whose crop selection is complete. -/
def cropCommitState : EditorState :=
  { baseState with
    isCropping := true
    crop := ⟨10, 10, 50, 50⟩
    completedCrop := some ⟨0, 0, 1, 1⟩ }

/-- C4 counterexample: after committing the crop of `cropCommitState`,
the crop selection is cleared and the editor is idle, but the crop
rectangle still holds the user's last value `{x:10, y:10, w:50, h:50}`,
not the 90%-centered default the claim requires. -/
theorem c4_crop_counterexample :
    (finishCrop cropCommitState).completedCrop = none ∧
    (finishCrop cropCommitState).isCropping = false ∧
    (finishCrop cropCommitState).crop = ⟨10, 10, 50, 50⟩ ∧
    (finishCrop cropCommitState).crop ≠ defaultCrop := by
  refine ⟨rfl, rfl, rfl, by decide⟩

/-- C4 witness: the amended statement instantiated at a committing
session and at a canceling session. -/
theorem c4_crop_state_machine_witness :
    finishCrop cropCommitState =
      { cropCommitState with
        imageData := some (cropImg sampleImg ⟨0 / 1, 0 / 1, 1 / 1, 1 / 1⟩)
        isCropping := false
        completedCrop := none
        scale := 1 } ∧
    (finishCrop { cropCommitState with completedCrop := none }).imageData =
      ({ cropCommitState with completedCrop := none } : EditorState).imageData := by
  constructor
  · exact (c4_crop_state_machine cropCommitState).1 ⟨0, 0, 1, 1⟩ sampleImg rfl rfl
  · exact ((c4_crop_state_machine _).2.1 rfl).1

theorem jsSplitChar_no_sep (sep : Char) :
    ∀ u : List Char, sep ∉ u → jsSplitChar sep u = [u]
  | [], _ => rfl
  | c :: cs, h => by
    have h1 : ¬ c = sep := fun hc => h (hc ▸ List.mem_cons_self c cs)
    have h2 : sep ∉ cs := fun hm => h (List.mem_cons_of_mem c hm)
    rw [jsSplitChar, if_neg h1, jsSplitChar_no_sep sep cs h2]

theorem jsSplitChar_append (sep : Char) :
    ∀ t u : List Char, sep ∉ t →
      jsSplitChar sep (t ++ sep :: u) = t :: jsSplitChar sep u
  | [], u, _ => by simp [jsSplitChar]
  | c :: t, u, h => by
    have h1 : ¬ c = sep := fun hc => h (hc ▸ List.mem_cons_self c t)
    have h2 : sep ∉ t := fun hm => h (List.mem_cons_of_mem c hm)
    rw [List.cons_append, jsSplitChar, if_neg h1, jsSplitChar_append sep t u h2]

/-- C9: the export is downloaded under the file name set at load time,
and that name is `edited-image.<ext>` with `<ext>` the subtype component
of the MIME type — the part between the first `/` and the end — falling
back to `jpg` when the MIME type has no `/` or an empty subtype. -/
theorem c9_download_file_name (t sub : List Char)
    (ht : '/' ∉ t) (hsub : '/' ∉ sub) :
    (sub ≠ [] → initFileName (String.mk (t ++ '/' :: sub)) =
      "edited-image." ++ String.mk sub) ∧
    initFileName (String.mk t) = "edited-image.jpg" ∧
    initFileName (String.mk (t ++ ['/'])) = "edited-image.jpg" ∧
    ∀ (host : Host) (s : EditorState) (res : SaveResult),
      (handleSave host s).2 = some res → res.downloadName = s.fileName := by
  refine ⟨?_, ?_, ?_, ?_⟩
  · intro hne
    simp only [initFileName, extFromMime, String.toList]
    rw [jsSplitChar_append '/' t sub ht, jsSplitChar_no_sep '/' sub hsub]
    simp [List.get?, hne]
  · simp only [initFileName, extFromMime, String.toList]
    rw [jsSplitChar_no_sep '/' t ht]
    rfl
  · simp only [initFileName, extFromMime, String.toList]
    have he : t ++ ['/'] = t ++ '/' :: ([] : List Char) := rfl
    rw [he, jsSplitChar_append '/' t [] ht]
    rfl
  · intro host s res hres
    cases himg : s.imageData with
    | none => rw [handleSave] at hres; simp [himg] at hres
    | some img =>
      rw [handleSave] at hres
      simp only [himg] at hres
      obtain rfl : _ = res := Option.some.injEq _ _ ▸ hres
      rfl

/-- C9 witness: the MIME type `image/png` yields the download name
`edited-image.png`. -/
theorem c9_download_file_name_witness :
    initFileName (String.mk ("image".toList ++ '/' :: "png".toList)) =
      "edited-image." ++ String.mk "png".toList ∧
    initFileName (String.mk "imagepng".toList) = "edited-image.jpg" := by
  constructor
  · exact (c9_download_file_name "image".toList "png".toList
      (by decide) (by decide)).1 (by decide)
  · exact (c9_download_file_name "imagepng".toList "png".toList
      (by decide) (by decide)).2.1

/-- Clamp a value into `[0, m]`. -/
def clampTo (m v : ℚ) : ℚ := max 0 (min m v)

theorem clampTo_of_le (m v : ℚ) (h0 : 0 ≤ v) (h1 : v ≤ m) : clampTo m v = v := by
  rw [clampTo, min_eq_right h1, max_eq_right h0]

theorem pct_scaled_bounds (p : ℚ) (n : ℕ) (h0 : 0 ≤ p) (h1 : p ≤ 100) :
    0 ≤ p / 100 * (n : ℚ) ∧ p / 100 * (n : ℚ) ≤ (n : ℚ) := by
  constructor
  · exact mul_nonneg (div_nonneg h0 (by norm_num)) (Nat.cast_nonneg n)
  · calc p / 100 * (n : ℚ) ≤ 1 * (n : ℚ) :=
        mul_le_mul_of_nonneg_right ((div_le_one (by norm_num)).mpr h1)
          (Nat.cast_nonneg n)
      _ = (n : ℚ) := one_mul _

/-- C2: with a committed crop rectangle whose fields lie in `[0, 100]`
and a working image of size `W × H` at export time, the source rectangle
the export pipeline extracts is exactly
`(x/100·W, y/100·H, w/100·W, h/100·H)`; those bounds already lie within
the image (clamping to the image bounds is the identity on them); and the
output surface shrinks to the crop size. -/
theorem c2_crop_coordinate_mapping (host : Host) (s : EditorState) (img : Img)
    (cc : CropRect) (res : SaveResult)
    (himg : s.imageData = some img) (hcc : s.completedCrop = some cc)
    (hx0 : 0 ≤ cc.x) (hx1 : cc.x ≤ 100) (hy0 : 0 ≤ cc.y) (hy1 : cc.y ≤ 100)
    (hw0 : 0 ≤ cc.width) (hw1 : cc.width ≤ 100)
    (hh0 : 0 ≤ cc.height) (hh1 : cc.height ≤ 100)
    (hres : (handleSave host s).2 = some res) :
    res.cropSrc = some
      ⟨cc.x / 100 * (img.width : ℚ), cc.y / 100 * (img.height : ℚ),
       cc.width / 100 * (img.width : ℚ), cc.height / 100 * (img.height : ℚ)⟩ ∧
    clampTo (img.width : ℚ) (cc.x / 100 * (img.width : ℚ))
        = cc.x / 100 * (img.width : ℚ) ∧
    clampTo (img.height : ℚ) (cc.y / 100 * (img.height : ℚ))
        = cc.y / 100 * (img.height : ℚ) ∧
    clampTo (img.width : ℚ) (cc.width / 100 * (img.width : ℚ))
        = cc.width / 100 * (img.width : ℚ) ∧
    clampTo (img.height : ℚ) (cc.height / 100 * (img.height : ℚ))
        = cc.height / 100 * (img.height : ℚ) ∧
    res.base.width = ratToDim (cc.width / 100 * (img.width : ℚ)) ∧
    res.base.height = ratToDim (cc.height / 100 * (img.height : ℚ)) := by
  rw [handleSave] at hres
  simp only [himg] at hres
  obtain rfl : _ = res := Option.some.injEq _ _ ▸ hres
  refine ⟨?_, ?_, ?_, ?_, ?_, ?_, ?_⟩
  · simp [hcc]
  · exact clampTo_of_le _ _ (pct_scaled_bounds cc.x img.width hx0 hx1).1
      (pct_scaled_bounds cc.x img.width hx0 hx1).2
  · exact clampTo_of_le _ _ (pct_scaled_bounds cc.y img.height hy0 hy1).1
      (pct_scaled_bounds cc.y img.height hy0 hy1).2
  · exact clampTo_of_le _ _ (pct_scaled_bounds cc.width img.width hw0 hw1).1
      (pct_scaled_bounds cc.width img.width hw0 hw1).2
  · exact clampTo_of_le _ _ (pct_scaled_bounds cc.height img.height hh0 hh1).1
      (pct_scaled_bounds cc.height img.height hh0 hh1).2
  · simp [hcc, cropImg]
  · simp [hcc, cropImg]

/-- A 200×100 opaque red image, for the spec's crop-then-export
scenario. -/
def wideImg : Img := ⟨200, 100, fun _ _ => ⟨255, 0, 0, 255⟩⟩

/-- A session about to export with the committed crop
`{x:25, y:0, w:50, h:100}` over `wideImg`. -/
def cropSaveState : EditorState :=
  { baseState with
    imageData := some wideImg
    completedCrop := some ⟨25, 0, 50, 100⟩ }

/-- C2 witness: the crop-then-export scenario extracts
`(50, 0, 100, 100)` from the 200×100 image and the output is
100×100. -/
theorem c2_crop_coordinate_mapping_witness :
    ((handleSave trivialHost cropSaveState).2.map
        (fun r => (r.cropSrc, r.base.width, r.base.height))) =
      some (some ⟨50, 0, 100, 100⟩, 100, 100) := by
  obtain ⟨res, hres⟩ : ∃ r, (handleSave trivialHost cropSaveState).2 = some r :=
    ⟨_, rfl⟩
  have h := c2_crop_coordinate_mapping trivialHost cropSaveState wideImg
    ⟨25, 0, 50, 100⟩ res rfl rfl (by norm_num) (by norm_num) (by norm_num)
    (by norm_num) (by norm_num) (by norm_num) (by norm_num) (by norm_num) hres
  rw [hres]
  simp only [Option.map_some']
  rw [h.1, h.2.2.2.2.2.1, h.2.2.2.2.2.2]
  norm_num [wideImg, ratToDim]
  decide

/-- C5: every stored text annotation is passed to the export's `fillText`
at position `(dx·sx, dy·sy)` where `sx = output width / displayed-element
width` and `sy = output height / displayed-element height`, with its font
size remapped by the smaller of the two scale factors, and with its text
and color unchanged. -/
theorem c5_text_coordinate_remap (host : Host) (s : EditorState) (img : Img)
    (res : SaveResult) (i : ℕ) (a : TextAnnot)
    (himg : s.imageData = some img)
    (hres : (handleSave host s).2 = some res)
    (ha : s.textAnnotations.get? i = some a) :
    res.textCmds.get? i = some
      { text := a.text
        color := a.color
        x := a.x * ((res.base.width : ℚ) / s.displayWidth)
        y := a.y * ((res.base.height : ℚ) / s.displayHeight)
        fontSize := a.fontSize * min ((res.base.width : ℚ) / s.displayWidth)
          ((res.base.height : ℚ) / s.displayHeight) } := by
  rw [handleSave] at hres
  simp only [himg] at hres
  obtain rfl : _ = res := Option.some.injEq _ _ ▸ hres
  rw [List.get?_map, ha]
  rfl

/-- A 100×100 opaque gray image displayed at 50×50, with one text
annotation, for the C5 instantiation. -/
def textSaveState : EditorState :=
  { baseState with
    imageData := some ⟨100, 100, fun _ _ => ⟨100, 100, 100, 255⟩⟩
    displayWidth := 50
    displayHeight := 50
    textAnnotations := [⟨10, 20, "hi", "#ffffff", 12, none, none, none, none⟩] }

/-- A placeholder export outcome, used only as the default of `Option.getD`
when naming the concrete outcome of a witness export. -/
def save0 : SaveResult := ⟨none, clearImg 0 0, [], "", ""⟩

/-- C5 witness: with scale factors `100/50 = 2`, the annotation stored at
display position `(10, 20)` with font size 12 is drawn at `(20, 40)` with
font size 24. -/
theorem c5_text_coordinate_remap_witness :
    ((handleSave trivialHost textSaveState).2.map (fun r => r.textCmds.get? 0)) =
      some (some ⟨"hi", "#ffffff", 20, 40, 24⟩) := by
  have hres : (handleSave trivialHost textSaveState).2 =
      some ((handleSave trivialHost textSaveState).2.getD save0) := rfl
  have h := c5_text_coordinate_remap trivialHost textSaveState
    ⟨100, 100, fun _ _ => ⟨100, 100, 100, 255⟩⟩
    ((handleSave trivialHost textSaveState).2.getD save0) 0
    ⟨10, 20, "hi", "#ffffff", 12, none, none, none, none⟩ rfl hres rfl
  have hw : ((handleSave trivialHost textSaveState).2.getD save0).base.width = 100 := rfl
  have hh : ((handleSave trivialHost textSaveState).2.getD save0).base.height = 100 := rfl
  rw [hres]
  simp only [Option.map_some']
  rw [h, hw, hh]
  norm_num [textSaveState, baseState]

theorem foldl_paint_no_cover (coverage : TextCmd → ℕ → ℕ → Bool)
    (colorOf : String → Pixel) (x y : ℕ) :
    ∀ (l : List TextCmd) (acc : Pixel), (∀ c ∈ l, coverage c x y = false) →
      l.foldl (fun acc c => if coverage c x y then colorOf c.color else acc) acc = acc
  | [], _, _ => rfl
  | c :: l, acc, h => by
    rw [List.foldl_cons, if_neg (by simp [h c (List.mem_cons_self c l)]),
      foldl_paint_no_cover coverage colorOf x y l acc
        (fun cc hcc => h cc (List.mem_cons_of_mem c hcc))]

theorem renderText_last_cover (coverage : TextCmd → ℕ → ℕ → Bool)
    (colorOf : String → Pixel) (base : Img) (l1 l2 : List TextCmd) (c : TextCmd)
    (x y : ℕ) (hc : coverage c x y = true)
    (h2 : ∀ cc ∈ l2, coverage cc x y = false) :
    (renderText coverage colorOf (l1 ++ c :: l2) base).px x y = colorOf c.color := by
  simp only [renderText]
  rw [List.foldl_append, List.foldl_cons, if_pos hc]
  exact foldl_paint_no_cover coverage colorOf x y l2 _ h2

/-- In the painter model, the last command that covers a pixel determines
that pixel's final color. -/
theorem renderText_get_last (coverage : TextCmd → ℕ → ℕ → Bool)
    (colorOf : String → Pixel) (base : Img) (l : List TextCmd) (j : ℕ)
    (c : TextCmd) (x y : ℕ) (hj : l.get? j = some c)
    (hcov : coverage c x y = true)
    (hlast : ∀ k cc, j < k → l.get? k = some cc → coverage cc x y = false) :
    (renderText coverage colorOf l base).px x y = colorOf c.color := by
  obtain ⟨hlen, hget⟩ := List.get?_eq_some.mp hj
  have hgj : l[j] = c := by
    rw [List.get_eq_getElem] at hget
    exact hget
  have hdecomp : l = l.take j ++ c :: l.drop (j + 1) := by
    conv_lhs => rw [← List.take_append_drop j l]
    rw [List.drop_eq_getElem_cons hlen, hgj]
  have h2 : ∀ cc ∈ l.drop (j + 1), coverage cc x y = false := by
    intro cc hcc
    obtain ⟨m, hm⟩ := List.mem_iff_get?.mp hcc
    rw [List.get?_drop] at hm
    exact hlast (j + 1 + m) cc (by omega) hm
  rw [hdecomp]
  exact renderText_last_cover coverage colorOf base _ _ c x y hcov h2

/-- C6: the export emits the text commands in creation order — the
command at index `i` carries the `i`-th annotation's text and color — so
in the painter model of the text-drawing phase, when the command of a
later annotation `b` covers a pixel also covered by the command of an
earlier annotation `a` (and no still-later command covers it), the final
exported pixel is `b`'s color: later annotations occlude earlier ones. -/
theorem c6_text_zorder (host : Host) (s : EditorState) (img : Img)
    (res : SaveResult) (i j : ℕ) (a b : TextAnnot) (cA cB : TextCmd)
    (coverage : TextCmd → ℕ → ℕ → Bool) (colorOf : String → Pixel) (x y : ℕ)
    (himg : s.imageData = some img)
    (hres : (handleSave host s).2 = some res)
    (hA : s.textAnnotations.get? i = some a)
    (hB : s.textAnnotations.get? j = some b)
    (hij : i < j)
    (hcA : res.textCmds.get? i = some cA)
    (hcB : res.textCmds.get? j = some cB)
    (hcovA : coverage cA x y = true)
    (hcovB : coverage cB x y = true)
    (hlast : ∀ k cc, j < k → res.textCmds.get? k = some cc →
      coverage cc x y = false) :
    (cA.text, cA.color) = (a.text, a.color) ∧
    (cB.text, cB.color) = (b.text, b.color) ∧
    (renderText coverage colorOf res.textCmds res.base).px x y
      = colorOf b.color := by
  have hpaint := renderText_get_last coverage colorOf res.base res.textCmds j cB
    x y hcB hcovB hlast
  rw [handleSave] at hres
  simp only [himg] at hres
  obtain rfl : _ = res := Option.some.injEq _ _ ▸ hres
  rw [List.get?_map, hA] at hcA
  rw [List.get?_map, hB] at hcB
  obtain rfl : _ = cA := Option.some.injEq _ _ ▸ hcA
  obtain rfl : _ = cB := Option.some.injEq _ _ ▸ hcB
  exact ⟨rfl, rfl, hpaint⟩

/-- Opaque blue for the color string `#0000ff`, opaque red otherwise. -/
def zorderColor (c : String) : Pixel :=
  if c = "#0000ff" then ⟨0, 0, 255, 255⟩ else ⟨255, 0, 0, 255⟩

/-- A session with a red annotation created first and a blue annotation
created second, both at the origin. -/
def zorderState : EditorState :=
  { baseState with
    imageData := some ⟨1, 1, fun _ _ => ⟨100, 100, 100, 255⟩⟩
    textAnnotations := [⟨0, 0, "A", "#ff0000", 10, none, none, none, none⟩,
      ⟨0, 0, "B", "#0000ff", 10, none, none, none, none⟩] }

/-- C6 witness: with full coverage, the pixel where both annotations land
ends up with the color of the later (blue) annotation. -/
theorem c6_text_zorder_witness :
    ((handleSave trivialHost zorderState).2.map (fun r =>
        (renderText (fun _ _ _ => true) zorderColor r.textCmds r.base).px 0 0)) =
      some (⟨0, 0, 255, 255⟩ : Pixel) := by
  have hres : (handleSave trivialHost zorderState).2 =
      some ((handleSave trivialHost zorderState).2.getD save0) := rfl
  have hlast : ∀ k cc, 1 < k →
      ((handleSave trivialHost zorderState).2.getD save0).textCmds.get? k = some cc →
      (fun (_ : TextCmd) (_ _ : ℕ) => true) cc 0 0 = false := by
    intro k cc hk hc
    have hlen :
        ((handleSave trivialHost zorderState).2.getD save0).textCmds.length = 2 := rfl
    rw [List.get?_eq_none.mpr (by rw [hlen]; omega)] at hc
    exact Option.noConfusion hc
  have h := c6_text_zorder trivialHost zorderState
    ⟨1, 1, fun _ _ => ⟨100, 100, 100, 255⟩⟩
    ((handleSave trivialHost zorderState).2.getD save0) 0 1
    ⟨0, 0, "A", "#ff0000", 10, none, none, none, none⟩
    ⟨0, 0, "B", "#0000ff", 10, none, none, none, none⟩
    _ _ (fun _ _ _ => true) zorderColor 0 0 rfl hres rfl rfl
    (by norm_num) rfl rfl rfl rfl hlast
  rw [hres]
  simp only [Option.map_some']
  rw [h.2.2]
  simp [zorderColor]

/-- The failing session for the basic-export scenario: a 1×1 all-gray
image with brightness 120, contrast 100, saturation 100, no geometry or
annotation changes. -/
def grayState : EditorState :=
  { baseState with
    imageData := some ⟨1, 1, fun _ _ => ⟨100, 100, 100, 255⟩⟩
    brightness := 120 }

/-- C1, evaluated at the failing input: the export of `grayState` keeps
the source's 1×1 dimensions and emits no text, but its pixel is the
*unfiltered* source gray `(100,100,100)` — `ctx.filter` is assigned only
after the sole `drawImage` of the no-rotation path, so the brightness
tone filter the claim requires (which would give `(120,120,120)`) is
never applied. -/
theorem c1_tone_filter_missing_on_export (host : Host) :
    ((handleSave host grayState).2.map (fun r =>
        ((r.base.width, r.base.height), r.base.px 0 0, r.textCmds))) =
      some ((1, 1), ⟨100, 100, 100, 255⟩, []) ∧
    toneFilter 120 100 100 ⟨100, 100, 100, 255⟩ = ⟨120, 120, 120, 255⟩ ∧
    (handleSave host grayState).2.map (fun r => r.base.px 0 0) ≠
      some (toneFilter 120 100 100 ⟨100, 100, 100, 255⟩) := by
  have hpx : (handleSave host grayState).2.map (fun r => r.base.px 0 0) =
      some (⟨100, 100, 100, 255⟩ : Pixel) := rfl
  have htf : toneFilter 120 100 100 ⟨100, 100, 100, 255⟩
      = (⟨120, 120, 120, 255⟩ : Pixel) := by
    norm_num [toneFilter, brightnessF, contrastF, saturateF, clampCh,
      min_def, max_def]
  refine ⟨rfl, htf, ?_⟩
  rw [hpx, htf]
  simp [Pixel.mk.injEq]
